import Mathlib

/-!
Shallow embedding of the leads router of this repository
(src/routes/leads.js, with the database layer in the same source file).

Conventions of the embedding:
* JavaScript numbers are idealised as exact rationals; NaN and the two
  infinities are kept as separate constructors of `JsNum`.
* Query-string parameters arrive as an optional string per key, matching
  an Express `req.query` lookup (`none` = key absent).
* SQL execution is modelled over an in-memory list of rows: a handler
  receives the table, and returns a response, the new table and the
  trace of database statements it issued.
* The dynamic WHERE clause is built as structured conditions carrying
  their placeholder indices; `render` produces exactly the SQL text the
  JavaScript code concatenates.
-/

namespace Leads

/-- JavaScript number values. Finite doubles are idealised as rationals;
NaN and the infinities are separate constructors. -/
inductive JsNum where
  | nan
  | inf
  | negInf
  | val (q : ℚ)
deriving DecidableEq, Repr

/-- JavaScript/JSON values as bound as SQL parameters or stored in rows. -/
inductive JVal where
  | null
  | str (s : String)
  | num (n : JsNum)
  | bool (b : Bool)
deriving DecidableEq, Repr

/-- Whitespace characters recognised by JavaScript trimming (ASCII subset). -/
def isJsSpace (c : Char) : Bool :=
  c = ' ' || c = '\t' || c = '\n' || c = '\r' || c = '\x0b' || c = '\x0c'

/-- Model of the implicit whitespace trimming JavaScript performs when
converting a string to a number. -/
def jsTrim (s : String) : String :=
  String.mk (((s.toList.dropWhile isJsSpace).reverse.dropWhile isJsSpace).reverse)

/-- Lower-case an ASCII character, modelling `toLowerCase` per character. -/
def lowerChar (c : Char) : Char :=
  if 65 ≤ c.toNat ∧ c.toNat ≤ 90 then Char.ofNat (c.toNat + 32) else c

/-- Model of `String.prototype.toLowerCase` (ASCII). -/
def jsToLower (s : String) : String :=
  String.mk (s.toList.map lowerChar)

/-- Splitting helper for `String.prototype.split` with a one-character
separator, accumulating the current chunk in reverse. -/
def splitAux (sep : Char) : List Char → List Char → List (List Char)
  | [], acc => [acc.reverse]
  | c :: rest, acc =>
    if c = sep then acc.reverse :: splitAux sep rest []
    else splitAux sep rest (c :: acc)

/-- Model of `String.prototype.split` with a one-character separator:
`jsSplit "" sep = [""]`, like in JavaScript. -/
def jsSplit (s : String) (sep : Char) : List String :=
  (splitAux sep s.toList []).map String.mk

/-- Numeric value of a list of decimal digit characters. -/
def decDigitsVal (ds : List Char) : Nat :=
  ds.foldl (fun a c => a * 10 + (c.toNat - 48)) 0

/-- Value of one digit character in radix up to 16. -/
def hexDigitVal (c : Char) : Nat :=
  if c.isDigit then c.toNat - 48
  else if 97 ≤ c.toNat ∧ c.toNat ≤ 102 then c.toNat - 87
  else if 65 ≤ c.toNat ∧ c.toNat ≤ 70 then c.toNat - 55
  else 0

/-- Hexadecimal digit test. -/
def isHexDigitChar (c : Char) : Bool :=
  c.isDigit || (97 ≤ c.toNat && c.toNat ≤ 102) || (65 ≤ c.toNat && c.toNat ≤ 70)

/-- Octal digit test. -/
def isOctDigitChar (c : Char) : Bool :=
  48 ≤ c.toNat && c.toNat ≤ 55

/-- Binary digit test. -/
def isBinDigitChar (c : Char) : Bool :=
  c = '0' || c = '1'

/-- Numeric value of digits in a given radix. -/
def radixVal (r : Nat) (ds : List Char) : Nat :=
  ds.foldl (fun a c => a * r + hexDigitVal c) 0

/-- Exponent part of a decimal literal: optional sign then digits,
which must consume the rest of the input. -/
def parseExpPart (cs : List Char) : Option Int :=
  let signed : Int × List Char :=
    match cs with
    | '+' :: t => (1, t)
    | '-' :: t => (-1, t)
    | _ => (1, cs)
  let ed := signed.2.takeWhile Char.isDigit
  let rest := signed.2.dropWhile Char.isDigit
  if ed.isEmpty then none
  else if rest.isEmpty then some (signed.1 * (decDigitsVal ed : Int))
  else none

/-- Apply a base-ten exponent to a rational mantissa. -/
def applyExp (m : ℚ) (e : Int) : ℚ :=
  if 0 ≤ e then m * (10 : ℚ) ^ e.toNat else m / (10 : ℚ) ^ (-e).toNat

/-- Unsigned decimal literal: digits, optional fraction, optional
exponent; the whole input must be consumed, else the literal is invalid. -/
def parseDecFrom (cs : List Char) : Option ℚ :=
  let ip := cs.takeWhile Char.isDigit
  let r1 := cs.dropWhile Char.isDigit
  let fracRest : List Char × List Char :=
    match r1 with
    | '.' :: rest => (rest.takeWhile Char.isDigit, rest.dropWhile Char.isDigit)
    | _ => ([], r1)
  let fp := fracRest.1
  let r2 := fracRest.2
  if ip.isEmpty ∧ fp.isEmpty then none
  else
    let mant : ℚ :=
      if fp.isEmpty then (decDigitsVal ip : ℚ)
      else (decDigitsVal ip : ℚ) + (decDigitsVal fp : ℚ) / (10 : ℚ) ^ fp.length
    match r2 with
    | [] => some mant
    | 'e' :: rest =>
      match parseExpPart rest with
      | some e => some (applyExp mant e)
      | none => none
    | 'E' :: rest =>
      match parseExpPart rest with
      | some e => some (applyExp mant e)
      | none => none
    | _ => none

/-- Optionally signed decimal literal, yielding NaN when invalid. -/
def decSigned (cs : List Char) : JsNum :=
  match cs with
  | '-' :: t =>
    match parseDecFrom t with
    | some q => JsNum.val (-q)
    | none => JsNum.nan
  | '+' :: t =>
    match parseDecFrom t with
    | some q => JsNum.val q
    | none => JsNum.nan
  | _ =>
    match parseDecFrom cs with
    | some q => JsNum.val q
    | none => JsNum.nan

/-- Radix-prefixed integer literal (after the 0x/0o/0b prefix). -/
def parseRadix (r : Nat) (ok : Char → Bool) (ds : List Char) : JsNum :=
  if ds.isEmpty then JsNum.nan
  else if ds.all ok then JsNum.val (radixVal r ds : ℚ)
  else JsNum.nan

/-- Model of the JavaScript `Number` conversion applied to a string:
trim, empty means zero, infinities, 0x/0o/0b literals, otherwise an
optionally signed decimal literal; anything else is NaN. -/
def jsNumber (s : String) : JsNum :=
  let t := jsTrim s
  if t = "" then JsNum.val 0
  else if t = "Infinity" ∨ t = "+Infinity" then JsNum.inf
  else if t = "-Infinity" then JsNum.negInf
  else
    match t.toList with
    | '0' :: c :: rest =>
      if c = 'x' ∨ c = 'X' then parseRadix 16 isHexDigitChar rest
      else if c = 'o' ∨ c = 'O' then parseRadix 8 isOctDigitChar rest
      else if c = 'b' ∨ c = 'B' then parseRadix 2 isBinDigitChar rest
      else decSigned ('0' :: c :: rest)
    | cs => decSigned cs

/-- Model of JavaScript `parseInt` with no radix argument: skip leading
whitespace, optional sign, a 0x/0X prefix switches to hexadecimal, then
as many digits as possible; no digits means NaN (`none`). -/
def jsParseInt (s : String) : Option Int :=
  let cs0 := s.toList.dropWhile isJsSpace
  let signed : Int × List Char :=
    match cs0 with
    | '-' :: t => (-1, t)
    | '+' :: t => (1, t)
    | _ => (1, cs0)
  match signed.2 with
  | '0' :: x :: rest =>
    if x = 'x' ∨ x = 'X' then
      let ds := rest.takeWhile isHexDigitChar
      if ds.isEmpty then none else some (signed.1 * (radixVal 16 ds : Int))
    else
      some (signed.1 * (decDigitsVal (('0' :: x :: rest).takeWhile Char.isDigit) : Int))
  | cs =>
    let ds := cs.takeWhile Char.isDigit
    if ds.isEmpty then none else some (signed.1 * (decDigitsVal ds : Int))

/-- JavaScript truthiness of a JSON value: undefined is handled at the
`Option` level, null, empty string, zero, NaN and false are falsy. -/
def truthyJVal : JVal → Bool
  | JVal.null => false
  | JVal.str s => s ≠ ""
  | JVal.num n =>
    match n with
    | JsNum.val q => q ≠ 0
    | JsNum.nan => false
    | _ => true
  | JVal.bool b => b

/-- Truthiness of a possibly absent JSON value. -/
def truthyOpt : Option JVal → Bool
  | none => false
  | some v => truthyJVal v

/-- Model of the JavaScript expression `x || d` for a possibly absent
value: the default is taken when the value is absent or falsy. -/
def jsOr (x : Option JVal) (d : JVal) : JVal :=
  match x with
  | some v => if truthyJVal v then v else d
  | none => d

/-! ## The filter builder of src/routes/leads.js (buildWhereClause) -/

/-- Input to `buildWhereClause`: the spread of `req.query` (string-valued
parameters) together with the authenticated user id that the handler
adds under the `userId` key. -/
structure Query where
  userId : Nat
  params : String → Option String

/-- Structured form of one pushed WHERE condition. Each constructor
carries the 1-based placeholder indices it references; `render` produces
the exact SQL text the JavaScript code pushes. -/
inductive Cond where
  | eq (field : String) (p : Nat)
  | ilike (field : String) (p : Nat)
  | inList (field : String) (ps : List Nat)
  | gt (field : String) (p : Nat)
  | lt (field : String) (p : Nat)
  | between (field : String) (p1 p2 : Nat)
  | ge (field : String) (p : Nat)
  | le (field : String) (p : Nat)
  | dateEq (field : String) (p : Nat)
  | dateLe (field : String) (p : Nat)
  | dateGe (field : String) (p : Nat)
deriving DecidableEq, Repr

/-- Placeholder text for a 1-based index. -/
def placeholder (p : Nat) : String := "$" ++ toString p

/-- SQL text of a structured condition, exactly as concatenated by the
JavaScript template literals in buildWhereClause. -/
def render : Cond → String
  | Cond.eq f p => f ++ " = " ++ placeholder p
  | Cond.ilike f p => f ++ " ILIKE " ++ placeholder p
  | Cond.inList f ps => f ++ " IN (" ++ String.intercalate "," (ps.map placeholder) ++ ")"
  | Cond.gt f p => f ++ " > " ++ placeholder p
  | Cond.lt f p => f ++ " < " ++ placeholder p
  | Cond.between f p1 p2 => f ++ " BETWEEN " ++ placeholder p1 ++ " AND " ++ placeholder p2
  | Cond.ge f p => f ++ " >= " ++ placeholder p
  | Cond.le f p => f ++ " <= " ++ placeholder p
  | Cond.dateEq f p => f ++ "::date = " ++ placeholder p
  | Cond.dateLe f p => f ++ "::date <= " ++ placeholder p
  | Cond.dateGe f p => f ++ "::date >= " ++ placeholder p

/-- The placeholder indices a condition references, in textual order. -/
def condPlaceholders : Cond → List Nat
  | Cond.eq _ p => [p]
  | Cond.ilike _ p => [p]
  | Cond.inList _ ps => ps
  | Cond.gt _ p => [p]
  | Cond.lt _ p => [p]
  | Cond.between _ p1 p2 => [p1, p2]
  | Cond.ge _ p => [p]
  | Cond.le _ p => [p]
  | Cond.dateEq _ p => [p]
  | Cond.dateLe _ p => [p]
  | Cond.dateGe _ p => [p]

/-- Builder state: the `conditions` and `values` arrays plus the running
placeholder counter `i` of buildWhereClause. -/
structure WB where
  conditions : List Cond
  values : List JVal
  i : Nat
deriving Repr

/-- Push one condition referencing one placeholder and one value,
incrementing the counter: `conditions.push(...); values.push(v); i++`. -/
def pushOne (wb : WB) (mk : Nat → Cond) (v : JVal) : WB :=
  { conditions := wb.conditions ++ [mk wb.i]
    values := wb.values ++ [v]
    i := wb.i + 1 }

/-- Push one condition referencing two consecutive placeholders and two
values: the BETWEEN cases, where the code does `i += 2`. -/
def pushTwo (wb : WB) (mk : Nat → Nat → Cond) (v1 v2 : JVal) : WB :=
  { conditions := wb.conditions ++ [mk wb.i (wb.i + 1)]
    values := wb.values ++ [v1, v2]
    i := wb.i + 2 }

/-- Push an IN condition over a list of items, one fresh placeholder per
item: `list.map(() => $i++)` then `values.push(...list)`. -/
def pushIn (wb : WB) (field : String) (items : List String) : WB :=
  { conditions := wb.conditions ++ [Cond.inList field (List.range' wb.i items.length)]
    values := wb.values ++ items.map JVal.str
    i := wb.i + items.length }

/-- String fields: equals / contains, both guarded by truthiness. -/
def stringField (q : Query) (field : String) (wb : WB) : WB :=
  let wb1 :=
    match q.params (field ++ "_equals") with
    | some v => if v = "" then wb else pushOne wb (Cond.eq field) (JVal.str v)
    | none => wb
  match q.params (field ++ "_contains") with
  | some v =>
    if v = "" then wb1
    else pushOne wb1 (Cond.ilike field) (JVal.str ("%" ++ v ++ "%"))
  | none => wb1

/-- Enum fields: unsuffixed equals (truthy-guarded) and `_in` over a
comma-separated list whose items are trimmed and empties dropped. -/
def enumField (q : Query) (field : String) (wb : WB) : WB :=
  let wb1 :=
    match q.params field with
    | some v => if v = "" then wb else pushOne wb (Cond.eq field) (JVal.str v)
    | none => wb
  match q.params (field ++ "_in") with
  | some v =>
    if v = "" then wb1
    else
      let list := ((jsSplit v ',').map jsTrim).filter (fun s => decide (s ≠ ""))
      if list.isEmpty then wb1 else pushIn wb1 field list
  | none => wb1

/-- Number fields: equals / gt / lt guarded only by definedness, and a
truthy-guarded BETWEEN that requires at least two comma-separated parts;
every raw string goes through the `Number` conversion. -/
def numberField (q : Query) (field : String) (wb : WB) : WB :=
  let wb1 :=
    match q.params field with
    | some v => pushOne wb (Cond.eq field) (JVal.num (jsNumber v))
    | none => wb
  let wb2 :=
    match q.params (field ++ "_gt") with
    | some v => pushOne wb1 (Cond.gt field) (JVal.num (jsNumber v))
    | none => wb1
  let wb3 :=
    match q.params (field ++ "_lt") with
    | some v => pushOne wb2 (Cond.lt field) (JVal.num (jsNumber v))
    | none => wb2
  match q.params (field ++ "_between") with
  | some v =>
    if v = "" then wb3
    else
      let parts := jsSplit v ','
      if parts.length < 2 then wb3
      else
        pushTwo wb3 (Cond.between field)
          (JVal.num (jsNumber (parts.getD 0 ""))) (JVal.num (jsNumber (parts.getD 1 "")))
  | none => wb3

/-- Back-compat bound: `value_min` adds `lead_value >= $i`. -/
def valueMinStep (q : Query) (wb : WB) : WB :=
  match q.params "value_min" with
  | some v => pushOne wb (Cond.ge "lead_value") (JVal.num (jsNumber v))
  | none => wb

/-- Back-compat bound: `value_max` adds `lead_value <= $i`. -/
def valueMaxStep (q : Query) (wb : WB) : WB :=
  match q.params "value_max" with
  | some v => pushOne wb (Cond.le "lead_value") (JVal.num (jsNumber v))
  | none => wb

/-- Date fields: on / before / after with a `::date` cast, plus a
BETWEEN requiring both comma-separated halves to be truthy; date values
are bound as the raw strings. -/
def dateField (q : Query) (field : String) (wb : WB) : WB :=
  let wb1 :=
    match q.params (field ++ "_on") with
    | some v => if v = "" then wb else pushOne wb (Cond.dateEq field) (JVal.str v)
    | none => wb
  let wb2 :=
    match q.params (field ++ "_before") with
    | some v => if v = "" then wb1 else pushOne wb1 (Cond.dateLe field) (JVal.str v)
    | none => wb1
  let wb3 :=
    match q.params (field ++ "_after") with
    | some v => if v = "" then wb2 else pushOne wb2 (Cond.dateGe field) (JVal.str v)
    | none => wb2
  match q.params (field ++ "_between") with
  | some v =>
    if v = "" then wb3
    else
      let parts := jsSplit v ','
      if parts.getD 0 "" = "" ∨ parts.getD 1 "" = "" then wb3
      else pushTwo wb3 (Cond.between field) (JVal.str (parts.getD 0 "")) (JVal.str (parts.getD 1 ""))
  | none => wb3

/-- Back-compat bound: `created_after` adds `created_at::date >= $i`. -/
def createdAfterStep (q : Query) (wb : WB) : WB :=
  match q.params "created_after" with
  | some v => if v = "" then wb else pushOne wb (Cond.dateGe "created_at") (JVal.str v)
  | none => wb

/-- Back-compat bound: `created_before` adds `created_at::date <= $i`. -/
def createdBeforeStep (q : Query) (wb : WB) : WB :=
  match q.params "created_before" with
  | some v => if v = "" then wb else pushOne wb (Cond.dateLe "created_at") (JVal.str v)
  | none => wb

/-- Boolean filter: any defined `is_qualified` value is compared
case-insensitively against "true" and bound as a boolean. -/
def isQualifiedStep (q : Query) (wb : WB) : WB :=
  match q.params "is_qualified" with
  | some v => pushOne wb (Cond.eq "is_qualified") (JVal.bool (jsToLower v == "true"))
  | none => wb

/-- Owner scope: the builder starts with `user_id = $1` bound to the
caller id, with the counter already advanced to 2. -/
def ownerInit (q : Query) : WB :=
  { conditions := [Cond.eq "user_id" 1]
    values := [JVal.num (JsNum.val (q.userId : ℚ))]
    i := 2 }

/-- The buildWhereClause function of src/routes/leads.js, step by step
in source order. -/
def buildWhereClause (q : Query) : WB :=
  let wb := ownerInit q
  let wb := stringField q "email" wb
  let wb := stringField q "company" wb
  let wb := stringField q "city" wb
  let wb := stringField q "first_name" wb
  let wb := stringField q "last_name" wb
  let wb := enumField q "status" wb
  let wb := enumField q "source" wb
  let wb := numberField q "score" wb
  let wb := numberField q "lead_value" wb
  let wb := valueMinStep q wb
  let wb := valueMaxStep q wb
  let wb := dateField q "created_at" wb
  let wb := dateField q "last_activity_at" wb
  let wb := createdAfterStep q wb
  let wb := createdBeforeStep q wb
  isQualifiedStep q wb

/-- The returned `where` string: the joined conditions, or TRUE when
there are none (unreachable, since the owner condition is always there). -/
def whereString (wb : WB) : String :=
  if wb.conditions.isEmpty then "TRUE"
  else String.intercalate " AND " (wb.conditions.map render)

/-! ## Rows of the leads table -/

/-- One row of the leads table. Data columns hold JSON-ish values
(`JVal.null` models SQL NULL); `created_at` and `updated_at` are
server-assigned timestamp strings. -/
structure Lead where
  id : Nat
  user_id : Nat
  first_name : JVal
  last_name : JVal
  email : JVal
  phone : JVal
  company : JVal
  city : JVal
  state : JVal
  source : JVal
  status : JVal
  score : JVal
  lead_value : JVal
  last_activity_at : JVal
  is_qualified : JVal
  created_at : String
  updated_at : String
deriving DecidableEq, Repr

/-- Column lookup by the field names the filter builder uses. -/
def leadField (l : Lead) : String → Option JVal
  | "id" => some (JVal.num (JsNum.val (l.id : ℚ)))
  | "user_id" => some (JVal.num (JsNum.val (l.user_id : ℚ)))
  | "first_name" => some l.first_name
  | "last_name" => some l.last_name
  | "email" => some l.email
  | "phone" => some l.phone
  | "company" => some l.company
  | "city" => some l.city
  | "state" => some l.state
  | "source" => some l.source
  | "status" => some l.status
  | "score" => some l.score
  | "lead_value" => some l.lead_value
  | "last_activity_at" => some l.last_activity_at
  | "is_qualified" => some l.is_qualified
  | "created_at" => some (JVal.str l.created_at)
  | "updated_at" => some (JVal.str l.updated_at)
  | _ => none

/-- Number equality with SQL/IEEE behaviour: NaN equals nothing. -/
def jsNumEq : JsNum → JsNum → Bool
  | JsNum.val a, JsNum.val b => decide (a = b)
  | JsNum.inf, JsNum.inf => true
  | JsNum.negInf, JsNum.negInf => true
  | _, _ => false

/-- Strict order on numbers; NaN is below and above nothing. -/
def jsNumLt : JsNum → JsNum → Bool
  | JsNum.val a, JsNum.val b => decide (a < b)
  | JsNum.negInf, JsNum.val _ => true
  | JsNum.negInf, JsNum.inf => true
  | JsNum.val _, JsNum.inf => true
  | _, _ => false

/-- Value equality used for SQL comparisons; NULL equals nothing. -/
def jvEq : JVal → JVal → Bool
  | JVal.str a, JVal.str b => a == b
  | JVal.num a, JVal.num b => jsNumEq a b
  | JVal.bool a, JVal.bool b => a == b
  | _, _ => false

/-- Value order used for SQL comparisons; strings compare as text. -/
def jvLt : JVal → JVal → Bool
  | JVal.num a, JVal.num b => jsNumLt a b
  | JVal.str a, JVal.str b => decide (a < b)
  | _, _ => false

/-- Non-strict comparison derived from equality and strict order. -/
def jvLe (a b : JVal) : Bool := jvEq a b || jvLt a b

/-- SQL LIKE matching over characters: percent matches any sequence,
underscore any one character. -/
def likeM : List Char → List Char → Bool
  | [], [] => true
  | [], _ :: _ => false
  | '%' :: ps, s =>
    likeM ps s ||
      (match s with
       | [] => false
       | _ :: t => likeM ('%' :: ps) t)
  | '_' :: ps, _ :: t => likeM ps t
  | '_' :: _, [] => false
  | p :: ps, c :: t => (p == c) && likeM ps t
  | _ :: _, [] => false
termination_by ps s => (ps.length, s.length)

/-- Model of the `::date` cast: the date prefix of an ISO timestamp. -/
def dateCast : JVal → Option String
  | JVal.str s => some (String.mk (s.toList.take 10))
  | _ => none

/-- Bound value referenced by a 1-based placeholder index. -/
def getVal (vals : List JVal) (p : Nat) : Option JVal := vals[p - 1]?

/-- Truth value of one structured condition over one row, with the
bound-value list resolving the placeholders. NULL comparisons are false,
per SQL three-valued logic collapsed to a filter. -/
def evalCond (vals : List JVal) (l : Lead) : Cond → Bool
  | Cond.eq f p =>
    match leadField l f, getVal vals p with
    | some a, some b => jvEq a b
    | _, _ => false
  | Cond.ilike f p =>
    match leadField l f, getVal vals p with
    | some (JVal.str s), some (JVal.str pat) =>
      likeM (jsToLower pat).toList (jsToLower s).toList
    | _, _ => false
  | Cond.inList f ps =>
    ps.any (fun p =>
      match leadField l f, getVal vals p with
      | some a, some b => jvEq a b
      | _, _ => false)
  | Cond.gt f p =>
    match leadField l f, getVal vals p with
    | some a, some b => jvLt b a
    | _, _ => false
  | Cond.lt f p =>
    match leadField l f, getVal vals p with
    | some a, some b => jvLt a b
    | _, _ => false
  | Cond.between f p1 p2 =>
    match leadField l f, getVal vals p1, getVal vals p2 with
    | some a, some b1, some b2 => jvLe b1 a && jvLe a b2
    | _, _, _ => false
  | Cond.ge f p =>
    match leadField l f, getVal vals p with
    | some a, some b => jvLe b a
    | _, _ => false
  | Cond.le f p =>
    match leadField l f, getVal vals p with
    | some a, some b => jvLe a b
    | _, _ => false
  | Cond.dateEq f p =>
    match leadField l f, getVal vals p with
    | some a, some (JVal.str d) =>
      match dateCast a with
      | some da => da == d
      | none => false
    | _, _ => false
  | Cond.dateLe f p =>
    match leadField l f, getVal vals p with
    | some a, some (JVal.str d) =>
      match dateCast a with
      | some da => decide (da ≤ d)
      | none => false
    | _, _ => false
  | Cond.dateGe f p =>
    match leadField l f, getVal vals p with
    | some a, some (JVal.str d) =>
      match dateCast a with
      | some da => decide (d ≤ da)
      | none => false
    | _, _ => false

/-- Conjunction of all conditions: the meaning of joining the pushed
fragments with AND. -/
def evalConds (conds : List Cond) (vals : List JVal) (l : Lead) : Bool :=
  conds.all (evalCond vals l)

/-- Row filter induced by a builder result. -/
def matchesWhere (wb : WB) (l : Lead) : Bool :=
  evalConds wb.conditions wb.values l

/-! ## Request bodies and bound statement parameters -/

/-- The thirteen body fields the create and update handlers destructure;
`none` models an absent key. -/
structure Body where
  first_name : Option JVal := none
  last_name : Option JVal := none
  email : Option JVal := none
  phone : Option JVal := none
  company : Option JVal := none
  city : Option JVal := none
  state : Option JVal := none
  source : Option JVal := none
  status : Option JVal := none
  score : Option JVal := none
  lead_value : Option JVal := none
  last_activity_at : Option JVal := none
  is_qualified : Option JVal := none
deriving Repr

/-- An absent value binds as SQL NULL (the driver maps undefined to null). -/
def undefNull : Option JVal → JVal
  | some v => v
  | none => JVal.null

/-- Model of `typeof x === "number" ? x : null`. -/
def numOrNull : Option JVal → JVal
  | some (JVal.num n) => JVal.num n
  | _ => JVal.null

/-- Model of `typeof x === "boolean" ? x : false`. -/
def boolOrFalse : Option JVal → JVal
  | some (JVal.bool b) => JVal.bool b
  | _ => JVal.bool false

/-- The validation check of the create and update handlers:
`!first_name || !last_name || !email`. -/
def requiredMissing (b : Body) : Bool :=
  !truthyOpt b.first_name || !truthyOpt b.last_name || !truthyOpt b.email

/-- The fourteen bound values of the INSERT statement, in source order. -/
def insertValues (uid : Nat) (b : Body) : List JVal :=
  [ JVal.num (JsNum.val (uid : ℚ)),
    undefNull b.first_name,
    undefNull b.last_name,
    undefNull b.email,
    jsOr b.phone JVal.null,
    jsOr b.company JVal.null,
    jsOr b.city JVal.null,
    jsOr b.state JVal.null,
    jsOr b.source JVal.null,
    jsOr b.status (JVal.str "new"),
    numOrNull b.score,
    numOrNull b.lead_value,
    jsOr b.last_activity_at JVal.null,
    boolOrFalse b.is_qualified ]

/-- The fifteen bound values of the UPDATE statement, in source order. -/
def updateValues (b : Body) (id uid : Nat) : List JVal :=
  [ undefNull b.first_name,
    undefNull b.last_name,
    undefNull b.email,
    jsOr b.phone JVal.null,
    jsOr b.company JVal.null,
    jsOr b.city JVal.null,
    jsOr b.state JVal.null,
    jsOr b.source JVal.null,
    jsOr b.status (JVal.str "new"),
    numOrNull b.score,
    numOrNull b.lead_value,
    jsOr b.last_activity_at JVal.null,
    boolOrFalse b.is_qualified,
    JVal.num (JsNum.val (id : ℚ)),
    JVal.num (JsNum.val (uid : ℚ)) ]

/-- The row created by the INSERT: server-assigned id and timestamps,
owner set to the caller, columns set to the bound values. -/
def insertLead (uid freshId : Nat) (now : String) (b : Body) : Lead :=
  { id := freshId
    user_id := uid
    first_name := undefNull b.first_name
    last_name := undefNull b.last_name
    email := undefNull b.email
    phone := jsOr b.phone JVal.null
    company := jsOr b.company JVal.null
    city := jsOr b.city JVal.null
    state := jsOr b.state JVal.null
    source := jsOr b.source JVal.null
    status := jsOr b.status (JVal.str "new")
    score := numOrNull b.score
    lead_value := numOrNull b.lead_value
    last_activity_at := jsOr b.last_activity_at JVal.null
    is_qualified := boolOrFalse b.is_qualified
    created_at := now
    updated_at := now }

/-- Full-field replacement performed by the UPDATE SET list: every data
column is overwritten, `updated_at` is set to the current timestamp, and
id, owner and `created_at` are untouched. -/
def applyUpdate (l : Lead) (now : String) (b : Body) : Lead :=
  { l with
    first_name := undefNull b.first_name
    last_name := undefNull b.last_name
    email := undefNull b.email
    phone := jsOr b.phone JVal.null
    company := jsOr b.company JVal.null
    city := jsOr b.city JVal.null
    state := jsOr b.state JVal.null
    source := jsOr b.source JVal.null
    status := jsOr b.status (JVal.str "new")
    score := numOrNull b.score
    lead_value := numOrNull b.lead_value
    last_activity_at := jsOr b.last_activity_at JVal.null
    is_qualified := boolOrFalse b.is_qualified
    updated_at := now }

/-! ## The five route handlers -/

/-- Events a handler emits, in order: the auth middleware, the required-
fields validation, and each executed database statement with its bound
values. -/
inductive Ev where
  | auth
  | validate
  | dbQuery (sql : String) (vals : List JVal)
deriving DecidableEq, Repr

/-- The legacy pagination envelope `{page, limit, total, pages}`. -/
structure Pagination where
  page : Nat
  limit : Nat
  total : Nat
  pages : Int
deriving DecidableEq, Repr

/-- The GET /leads response payload with both envelope shapes. -/
structure ListPayload where
  data : List Lead
  page : Nat
  limit : Nat
  total : Nat
  totalPages : Int
  leads : List Lead
  pagination : Pagination
deriving DecidableEq, Repr

/-- Response bodies the handlers produce. -/
inductive RespBody where
  | error (msg : String)
  | leadBody (l : Lead)
  | messageOnly (msg : String)
  | messageLead (msg : String) (l : Lead)
  | listBody (p : ListPayload)
deriving DecidableEq, Repr

/-- Result of one request: HTTP status, response body, the table after
the request, and the emitted event trace. -/
structure HResult where
  status : Nat
  body : RespBody
  db : List Lead
  trace : List Ev
deriving DecidableEq, Repr

/-- Model of `x || d` after `parseInt`: NaN and 0 both fall back. -/
def jsOrZeroDefault (x : Option Int) (d : Int) : Int :=
  match x with
  | none => d
  | some 0 => d
  | some n => n

/-- Effective page: `Math.max(parseInt(req.query.page) || 1, 1)`. -/
def parsePage (o : Option String) : Nat :=
  (max (jsOrZeroDefault (o.bind jsParseInt) 1) 1).toNat

/-- Effective limit:
`Math.min(Math.max(parseInt(req.query.limit) || 20, 1), 100)`. -/
def parseLimit (o : Option String) : Nat :=
  (min (max (jsOrZeroDefault (o.bind jsParseInt) 20) 1) 100).toNat

/-- SQL text of the GET /leads/:id statement. -/
def getByIdSql : String := "SELECT * FROM leads WHERE id = $1 AND user_id = $2"

/-- SQL text of the INSERT statement (template literal reproduced). -/
def insertSql : String :=
  "INSERT INTO leads (\n        user_id, first_name, last_name, email, phone, company, city, state,\n        source, status, score, lead_value, last_activity_at, is_qualified\n      ) VALUES ($1,$2,$3,$4,$5,$6,$7,$8,$9,$10,$11,$12,$13,$14)\n      RETURNING *"

/-- SQL text of the ownership-existence check of PUT /leads/:id. -/
def putExistsSql : String := "SELECT id FROM leads WHERE id = $1 AND user_id = $2"

/-- SQL text of the UPDATE statement (template literal reproduced). -/
def putUpdateSql : String :=
  "UPDATE leads SET\n        first_name=$1, last_name=$2, email=$3, phone=$4, company=$5, city=$6, state=$7,\n        source=$8, status=$9, score=$10, lead_value=$11, last_activity_at=$12,\n        is_qualified=$13, updated_at=CURRENT_TIMESTAMP\n      WHERE id=$14 AND user_id=$15\n      RETURNING *"

/-- SQL text of the DELETE statement. -/
def deleteSql : String := "DELETE FROM leads WHERE id = $1 AND user_id = $2 RETURNING id"

/-- COUNT statement of GET /leads around the built WHERE fragment. -/
def countSqlOf (w : String) : String := "SELECT COUNT(*) FROM leads WHERE " ++ w

/-- List statement of GET /leads around the same WHERE fragment, adding
only ORDER BY, LIMIT and OFFSET (template literal reproduced); `n` is
the number of filter values already bound. -/
def listSqlOf (w : String) (n : Nat) : String :=
  "\n      SELECT *\n      FROM leads\n      WHERE " ++ w ++
    "\n      ORDER BY created_at DESC\n      LIMIT $" ++ toString (n + 1) ++
    " OFFSET $" ++ toString (n + 2) ++ "\n    "

/-- Insertion step for ordering rows by `created_at` descending. -/
def sortInsert (x : Lead) : List Lead → List Lead
  | [] => [x]
  | y :: ys => if decide (y.created_at ≤ x.created_at) then x :: y :: ys else y :: sortInsert x ys

/-- ORDER BY created_at DESC over the in-memory table. -/
def sortByCreatedAtDesc (db : List Lead) : List Lead := db.foldr sortInsert []

/-- The GET /leads response payload: clamp page and limit, build the
WHERE clause from the spread query plus the caller id, count, list one
page ordered by creation time descending, and fill both envelopes. -/
def getLeadsPayload (db : List Lead) (uid : Nat) (params : String → Option String) : ListPayload :=
  let page := parsePage (params "page")
  let limit := parseLimit (params "limit")
  let offset := (page - 1) * limit
  let wb := buildWhereClause { userId := uid, params := params }
  let total := (db.filter (matchesWhere wb)).length
  let rows := ((sortByCreatedAtDesc (db.filter (matchesWhere wb))).drop offset).take limit
  let totalPages : Int := ⌈(total : ℚ) / (limit : ℚ)⌉
  { data := rows
    page := page
    limit := limit
    total := total
    totalPages := totalPages
    leads := rows
    pagination := { page := page, limit := limit, total := total, pages := totalPages } }

/-- The GET /leads handler: the payload, the unchanged table and the two
statements it executes, the list statement binding the same filter
values plus limit and offset. -/
def getLeads (db : List Lead) (uid : Nat) (params : String → Option String) : HResult :=
  let page := parsePage (params "page")
  let limit := parseLimit (params "limit")
  let offset := (page - 1) * limit
  let wb := buildWhereClause { userId := uid, params := params }
  let w := whereString wb
  { status := 200
    body := RespBody.listBody (getLeadsPayload db uid params)
    db := db
    trace :=
      [ Ev.dbQuery (countSqlOf w) wb.values,
        Ev.dbQuery (listSqlOf w wb.values.length)
          (wb.values ++ [JVal.num (JsNum.val (limit : ℚ)), JVal.num (JsNum.val (offset : ℚ))]) ] }

/-- The GET /leads/:id handler: one SELECT constrained by id AND
user_id; empty result means 404, otherwise the row is returned. -/
def getLeadById (db : List Lead) (uid : Nat) (id : Nat) : HResult :=
  let tr := [Ev.dbQuery getByIdSql [JVal.num (JsNum.val (id : ℚ)), JVal.num (JsNum.val (uid : ℚ))]]
  match db.filter (fun l => l.id == id && l.user_id == uid) with
  | [] => { status := 404, body := RespBody.error "Lead not found", db := db, trace := tr }
  | l :: _ => { status := 200, body := RespBody.leadBody l, db := db, trace := tr }

/-- The POST /leads handler: validate the three required fields, then
INSERT with the caller as owner and respond 201 with the new row. -/
def createLead (db : List Lead) (uid freshId : Nat) (now : String) (b : Body) : HResult :=
  if requiredMissing b then
    { status := 400, body := RespBody.error "first_name, last_name, and email are required",
      db := db, trace := [Ev.validate] }
  else
    let newLead := insertLead uid freshId now b
    { status := 201
      body := RespBody.messageLead "Lead created successfully" newLead
      db := db ++ [newLead]
      trace := [Ev.validate, Ev.dbQuery insertSql (insertValues uid b)] }

/-- The PUT /leads/:id handler: first the ownership-existence SELECT
(404 when empty), then the required-fields validation, then the UPDATE
constrained by id AND user_id. -/
def updateLead (db : List Lead) (uid id : Nat) (now : String) (b : Body) : HResult :=
  let tr0 := [Ev.dbQuery putExistsSql [JVal.num (JsNum.val (id : ℚ)), JVal.num (JsNum.val (uid : ℚ))]]
  match db.filter (fun l => l.id == id && l.user_id == uid) with
  | [] => { status := 404, body := RespBody.error "Lead not found", db := db, trace := tr0 }
  | l0 :: _ =>
    if requiredMissing b then
      { status := 400, body := RespBody.error "first_name, last_name, and email are required",
        db := db, trace := tr0 ++ [Ev.validate] }
    else
      { status := 200
        body := RespBody.messageLead "Lead updated successfully" (applyUpdate l0 now b)
        db := db.map (fun l => if l.id == id && l.user_id == uid then applyUpdate l now b else l)
        trace := tr0 ++ [Ev.validate, Ev.dbQuery putUpdateSql (updateValues b id uid)] }

/-- The DELETE /leads/:id handler: one DELETE constrained by id AND
user_id RETURNING id; no returned row means 404. -/
def deleteLead (db : List Lead) (uid id : Nat) : HResult :=
  let tr := [Ev.dbQuery deleteSql [JVal.num (JsNum.val (id : ℚ)), JVal.num (JsNum.val (uid : ℚ))]]
  match db.filter (fun l => l.id == id && l.user_id == uid) with
  | [] => { status := 404, body := RespBody.error "Lead not found", db := db, trace := tr }
  | _ :: _ =>
    { status := 200, body := RespBody.messageOnly "Lead deleted successfully",
      db := db.filter (fun l => !(l.id == id && l.user_id == uid)), trace := tr }

/-- Modelled from the spec: the authentication middleware
(src/middleware/auth.js is required by the router but its code is not
under src/) resolves the caller identity and every route requires it; an
unauthenticated request is rejected before the handler body runs, an
authenticated one runs the handler with the resolved user id. -/
def withAuth (db : List Lead) (user : Option Nat) (handler : Nat → HResult) : HResult :=
  match user with
  | none => { status := 401, body := RespBody.error "Unauthorized", db := db, trace := [Ev.auth] }
  | some uid =>
    let r := handler uid
    { r with trace := Ev.auth :: r.trace }

/-- GET /leads with the auth middleware in front. -/
def getLeadsRoute (db : List Lead) (user : Option Nat) (params : String → Option String) : HResult :=
  withAuth db user (fun uid => getLeads db uid params)

/-- GET /leads/:id with the auth middleware in front. -/
def getLeadByIdRoute (db : List Lead) (user : Option Nat) (id : Nat) : HResult :=
  withAuth db user (fun uid => getLeadById db uid id)

/-- POST /leads with the auth middleware in front. -/
def createLeadRoute (db : List Lead) (user : Option Nat) (freshId : Nat) (now : String)
    (b : Body) : HResult :=
  withAuth db user (fun uid => createLead db uid freshId now b)

/-- PUT /leads/:id with the auth middleware in front. -/
def updateLeadRoute (db : List Lead) (user : Option Nat) (id : Nat) (now : String)
    (b : Body) : HResult :=
  withAuth db user (fun uid => updateLead db uid id now b)

/-- DELETE /leads/:id with the auth middleware in front. -/
def deleteLeadRoute (db : List Lead) (user : Option Nat) (id : Nat) : HResult :=
  withAuth db user (fun uid => deleteLead db uid id)

/-- Rows of a list response body; empty for other bodies. -/
def dataOf (r : HResult) : List Lead :=
  match r.body with
  | RespBody.listBody p => p.data
  | _ => []

/-- The single lead a response body carries, when it carries one. -/
def respLead (r : HResult) : Option Lead :=
  match r.body with
  | RespBody.leadBody l => some l
  | RespBody.messageLead _ l => some l
  | _ => none

/-- Recogniser for the validation event. -/
def isValidateEv : Ev → Bool
  | Ev.validate => true
  | _ => false

/-- Recogniser for database statement events. -/
def isQueryEv : Ev → Bool
  | Ev.dbQuery _ _ => true
  | _ => false

/-- True when no database statement is emitted before the first
validation event: the order the specification asserts for handlers that
validate. -/
def queriesAfterValidate (t : List Ev) : Bool :=
  (t.takeWhile (fun e => !isValidateEv e)).all (fun e => !isQueryEv e)

/-- One builder state extends another when it appends conditions and
values on the right, leaving the prefix untouched. -/
def Extends (wb wb2 : WB) : Prop :=
  ∃ tc tv, wb2.conditions = wb.conditions ++ tc ∧ wb2.values = wb.values ++ tv

/-- The well-formedness invariant the counter maintains: the referenced
placeholders, in order, are exactly 1..values.length, and the counter is
one past the number of values. -/
def Inv (wb : WB) : Prop :=
  (wb.conditions.map condPlaceholders).flatten = List.range' 1 wb.values.length ∧
    wb.i = wb.values.length + 1

/-- A required body field that is missing or the empty string: the
situations claim C3 describes (both are falsy in the validation). -/
def missingOrEmpty (o : Option JVal) : Prop := o = none ∨ o = some (JVal.str "")

/-- Concrete row used by the concrete-input theorems. -/
def sampleLead : Lead :=
  { id := 1
    user_id := 5
    first_name := JVal.str "Ada"
    last_name := JVal.str "Lovelace"
    email := JVal.str "ada@example.com"
    phone := JVal.null
    company := JVal.null
    city := JVal.null
    state := JVal.null
    source := JVal.null
    status := JVal.str "contacted"
    score := JVal.null
    lead_value := JVal.null
    last_activity_at := JVal.null
    is_qualified := JVal.bool false
    created_at := "2024-01-01T00:00:00Z"
    updated_at := "2024-01-01T00:00:00Z" }

/-- Concrete body with all three required fields present. -/
def sampleBody : Body :=
  { first_name := some (JVal.str "Ada")
    last_name := some (JVal.str "Lovelace")
    email := some (JVal.str "ada@example.com") }

/-! ## Builder lemmas: every step only appends conditions and values -/

theorem extends_refl (wb : WB) : Extends wb wb :=
  ⟨[], [], by simp, by simp⟩

theorem extends_trans {a b c : WB} (h1 : Extends a b) (h2 : Extends b c) : Extends a c := by
  obtain ⟨tc1, tv1, hc1, hv1⟩ := h1
  obtain ⟨tc2, tv2, hc2, hv2⟩ := h2
  exact ⟨tc1 ++ tc2, tv1 ++ tv2, by rw [hc2, hc1, List.append_assoc],
    by rw [hv2, hv1, List.append_assoc]⟩

theorem pushOne_extends (wb : WB) (mk : Nat → Cond) (v : JVal) : Extends wb (pushOne wb mk v) :=
  ⟨[mk wb.i], [v], rfl, rfl⟩

theorem pushTwo_extends (wb : WB) (mk : Nat → Nat → Cond) (v1 v2 : JVal) :
    Extends wb (pushTwo wb mk v1 v2) :=
  ⟨[mk wb.i (wb.i + 1)], [v1, v2], rfl, rfl⟩

theorem pushIn_extends (wb : WB) (f : String) (items : List String) :
    Extends wb (pushIn wb f items) :=
  ⟨[Cond.inList f (List.range' wb.i items.length)], items.map JVal.str, rfl, rfl⟩

theorem stringField_extends (q : Query) (f : String) (wb : WB) :
    Extends wb (stringField q f wb) := by
  rcases h1 : q.params (f ++ "_equals") with _ | v1 <;>
    rcases h2 : q.params (f ++ "_contains") with _ | v2 <;>
    simp only [stringField, h1, h2] <;>
    repeat
      first
      | exact extends_refl _
      | split_ifs
      | refine extends_trans ?_ (pushOne_extends _ _ _)

theorem enumField_extends (q : Query) (f : String) (wb : WB) :
    Extends wb (enumField q f wb) := by
  rcases h1 : q.params f with _ | v1 <;>
    rcases h2 : q.params (f ++ "_in") with _ | v2 <;>
    simp only [enumField, h1, h2] <;>
    repeat
      first
      | exact extends_refl _
      | split_ifs
      | refine extends_trans ?_ (pushOne_extends _ _ _)
      | refine extends_trans ?_ (pushIn_extends _ _ _)

theorem numberField_extends (q : Query) (f : String) (wb : WB) :
    Extends wb (numberField q f wb) := by
  rcases h1 : q.params f with _ | v1 <;>
    rcases h2 : q.params (f ++ "_gt") with _ | v2 <;>
    rcases h3 : q.params (f ++ "_lt") with _ | v3 <;>
    rcases h4 : q.params (f ++ "_between") with _ | v4 <;>
    simp only [numberField, h1, h2, h3, h4] <;>
    repeat
      first
      | exact extends_refl _
      | split_ifs
      | refine extends_trans ?_ (pushOne_extends _ _ _)
      | refine extends_trans ?_ (pushTwo_extends _ _ _ _)

theorem valueMinStep_extends (q : Query) (wb : WB) : Extends wb (valueMinStep q wb) := by
  rcases h1 : q.params "value_min" with _ | v <;> simp only [valueMinStep, h1]
  · exact extends_refl _
  · exact pushOne_extends _ _ _

theorem valueMaxStep_extends (q : Query) (wb : WB) : Extends wb (valueMaxStep q wb) := by
  rcases h1 : q.params "value_max" with _ | v <;> simp only [valueMaxStep, h1]
  · exact extends_refl _
  · exact pushOne_extends _ _ _

theorem dateField_extends (q : Query) (f : String) (wb : WB) :
    Extends wb (dateField q f wb) := by
  rcases h1 : q.params (f ++ "_on") with _ | v1 <;>
    rcases h2 : q.params (f ++ "_before") with _ | v2 <;>
    rcases h3 : q.params (f ++ "_after") with _ | v3 <;>
    rcases h4 : q.params (f ++ "_between") with _ | v4 <;>
    simp only [dateField, h1, h2, h3, h4] <;>
    repeat
      first
      | exact extends_refl _
      | split_ifs
      | refine extends_trans ?_ (pushOne_extends _ _ _)
      | refine extends_trans ?_ (pushTwo_extends _ _ _ _)

theorem createdAfterStep_extends (q : Query) (wb : WB) : Extends wb (createdAfterStep q wb) := by
  rcases h1 : q.params "created_after" with _ | v <;> simp only [createdAfterStep, h1]
  · exact extends_refl _
  · split_ifs
    · exact extends_refl _
    · exact pushOne_extends _ _ _

theorem createdBeforeStep_extends (q : Query) (wb : WB) : Extends wb (createdBeforeStep q wb) := by
  rcases h1 : q.params "created_before" with _ | v <;> simp only [createdBeforeStep, h1]
  · exact extends_refl _
  · split_ifs
    · exact extends_refl _
    · exact pushOne_extends _ _ _

theorem isQualifiedStep_extends (q : Query) (wb : WB) : Extends wb (isQualifiedStep q wb) := by
  rcases h1 : q.params "is_qualified" with _ | v <;> simp only [isQualifiedStep, h1]
  · exact extends_refl _
  · exact pushOne_extends _ _ _

/-- The builder written as the nested application its let-chain is. -/
theorem buildWhereClause_eq (q : Query) :
    buildWhereClause q =
      isQualifiedStep q (createdBeforeStep q (createdAfterStep q
        (dateField q "last_activity_at" (dateField q "created_at"
          (valueMaxStep q (valueMinStep q (numberField q "lead_value"
            (numberField q "score" (enumField q "source" (enumField q "status"
              (stringField q "last_name" (stringField q "first_name"
                (stringField q "city" (stringField q "company"
                  (stringField q "email" (ownerInit q)))))))))))))))) := rfl

theorem buildWhereClause_extends (q : Query) : Extends (ownerInit q) (buildWhereClause q) := by
  rw [buildWhereClause_eq]
  exact extends_trans (stringField_extends q "email" _)
    (extends_trans (stringField_extends q "company" _)
    (extends_trans (stringField_extends q "city" _)
    (extends_trans (stringField_extends q "first_name" _)
    (extends_trans (stringField_extends q "last_name" _)
    (extends_trans (enumField_extends q "status" _)
    (extends_trans (enumField_extends q "source" _)
    (extends_trans (numberField_extends q "score" _)
    (extends_trans (numberField_extends q "lead_value" _)
    (extends_trans (valueMinStep_extends q _)
    (extends_trans (valueMaxStep_extends q _)
    (extends_trans (dateField_extends q "created_at" _)
    (extends_trans (dateField_extends q "last_activity_at" _)
    (extends_trans (createdAfterStep_extends q _)
    (extends_trans (createdBeforeStep_extends q _)
      (isQualifiedStep_extends q _)))))))))))))))

theorem head_conditions_of_extends {wb wb2 : WB} (h : Extends wb wb2) {c : Cond}
    (hc : wb.conditions.head? = some c) : wb2.conditions.head? = some c := by
  obtain ⟨tc, tv, hcnd, _⟩ := h
  rw [hcnd]
  cases hl : wb.conditions with
  | nil => rw [hl] at hc; simp at hc
  | cons x xs => rw [hl] at hc; simp at hc; simp [hc]

theorem head_values_of_extends {wb wb2 : WB} (h : Extends wb wb2) {v : JVal}
    (hv : wb.values.head? = some v) : wb2.values.head? = some v := by
  obtain ⟨tc, tv, _, hval⟩ := h
  rw [hval]
  cases hl : wb.values with
  | nil => rw [hl] at hv; simp at hv
  | cons x xs => rw [hl] at hv; simp at hv; simp [hv]

theorem mem_values_of_extends {wb wb2 : WB} (h : Extends wb wb2) {v : JVal}
    (hv : v ∈ wb.values) : v ∈ wb2.values := by
  obtain ⟨tc, tv, _, hval⟩ := h
  rw [hval]
  exact List.mem_append_left _ hv

/-! ## Builder lemmas: placeholders stay consecutive -/

theorem inv_pushOne {wb : WB} (h : Inv wb) (mk : Nat → Cond) (v : JVal)
    (hmk : condPlaceholders (mk wb.i) = [wb.i]) : Inv (pushOne wb mk v) := by
  obtain ⟨h1, h2⟩ := h
  constructor
  · simp only [pushOne, List.map_append, List.flatten_append, List.map_cons, List.map_nil,
      List.flatten_cons, List.flatten_nil, List.append_nil, h1, hmk, List.length_append,
      List.length_cons, List.length_nil]
    rw [h2]
    rw [show wb.values.length + (0 + 1) = wb.values.length + 1 from rfl]
    rw [List.range'_1_concat 1 wb.values.length]
    congr 1
    rw [Nat.add_comm]
  · simp only [pushOne, List.length_append, List.length_cons, List.length_nil]
    omega

theorem inv_pushTwo {wb : WB} (h : Inv wb) (mk : Nat → Nat → Cond) (v1 v2 : JVal)
    (hmk : condPlaceholders (mk wb.i (wb.i + 1)) = [wb.i, wb.i + 1]) :
    Inv (pushTwo wb mk v1 v2) := by
  obtain ⟨h1, h2⟩ := h
  constructor
  · simp only [pushTwo, List.map_append, List.flatten_append, List.map_cons, List.map_nil,
      List.flatten_cons, List.flatten_nil, List.append_nil, h1, hmk, List.length_append,
      List.length_cons, List.length_nil]
    rw [h2]
    have : [wb.values.length + 1, wb.values.length + 1 + 1] =
        List.range' (1 + wb.values.length) 2 := by
      simp [List.range'_succ, List.range'_one]
      omega
    rw [this, List.range'_append_1]
    congr 1
    omega
  · simp only [pushTwo, List.length_append, List.length_cons, List.length_nil]
    omega

theorem inv_pushIn {wb : WB} (h : Inv wb) (f : String) (items : List String) :
    Inv (pushIn wb f items) := by
  obtain ⟨h1, h2⟩ := h
  constructor
  · simp only [pushIn, List.map_append, List.flatten_append, List.map_cons, List.map_nil,
      List.flatten_cons, List.flatten_nil, List.append_nil, h1, condPlaceholders,
      List.length_append, List.length_map]
    rw [h2]
    have h3 : wb.values.length + 1 = 1 + wb.values.length := by omega
    rw [h3, List.range'_append_1]
    congr 1
    omega
  · simp only [pushIn, List.length_append, List.length_map]
    omega

theorem inv_stringField (q : Query) (f : String) {wb : WB} (h : Inv wb) :
    Inv (stringField q f wb) := by
  rcases h1 : q.params (f ++ "_equals") with _ | v1 <;>
    rcases h2 : q.params (f ++ "_contains") with _ | v2 <;>
    simp only [stringField, h1, h2] <;>
    repeat
      first
      | assumption
      | split_ifs
      | refine inv_pushOne ?_ _ _ rfl

theorem inv_enumField (q : Query) (f : String) {wb : WB} (h : Inv wb) :
    Inv (enumField q f wb) := by
  rcases h1 : q.params f with _ | v1 <;>
    rcases h2 : q.params (f ++ "_in") with _ | v2 <;>
    simp only [enumField, h1, h2] <;>
    repeat
      first
      | assumption
      | split_ifs
      | refine inv_pushOne ?_ _ _ rfl
      | refine inv_pushIn ?_ _ _

theorem inv_numberField (q : Query) (f : String) {wb : WB} (h : Inv wb) :
    Inv (numberField q f wb) := by
  rcases h1 : q.params f with _ | v1 <;>
    rcases h2 : q.params (f ++ "_gt") with _ | v2 <;>
    rcases h3 : q.params (f ++ "_lt") with _ | v3 <;>
    rcases h4 : q.params (f ++ "_between") with _ | v4 <;>
    simp only [numberField, h1, h2, h3, h4] <;>
    repeat
      first
      | assumption
      | split_ifs
      | refine inv_pushOne ?_ _ _ rfl
      | refine inv_pushTwo ?_ _ _ _ rfl

theorem inv_valueMinStep (q : Query) {wb : WB} (h : Inv wb) : Inv (valueMinStep q wb) := by
  rcases h1 : q.params "value_min" with _ | v <;> simp only [valueMinStep, h1]
  · exact h
  · exact inv_pushOne h _ _ rfl

theorem inv_valueMaxStep (q : Query) {wb : WB} (h : Inv wb) : Inv (valueMaxStep q wb) := by
  rcases h1 : q.params "value_max" with _ | v <;> simp only [valueMaxStep, h1]
  · exact h
  · exact inv_pushOne h _ _ rfl

theorem inv_dateField (q : Query) (f : String) {wb : WB} (h : Inv wb) :
    Inv (dateField q f wb) := by
  rcases h1 : q.params (f ++ "_on") with _ | v1 <;>
    rcases h2 : q.params (f ++ "_before") with _ | v2 <;>
    rcases h3 : q.params (f ++ "_after") with _ | v3 <;>
    rcases h4 : q.params (f ++ "_between") with _ | v4 <;>
    simp only [dateField, h1, h2, h3, h4] <;>
    repeat
      first
      | assumption
      | split_ifs
      | refine inv_pushOne ?_ _ _ rfl
      | refine inv_pushTwo ?_ _ _ _ rfl

theorem inv_createdAfterStep (q : Query) {wb : WB} (h : Inv wb) : Inv (createdAfterStep q wb) := by
  rcases h1 : q.params "created_after" with _ | v <;> simp only [createdAfterStep, h1]
  · exact h
  · split_ifs
    · exact h
    · exact inv_pushOne h _ _ rfl

theorem inv_createdBeforeStep (q : Query) {wb : WB} (h : Inv wb) : Inv (createdBeforeStep q wb) := by
  rcases h1 : q.params "created_before" with _ | v <;> simp only [createdBeforeStep, h1]
  · exact h
  · split_ifs
    · exact h
    · exact inv_pushOne h _ _ rfl

theorem inv_isQualifiedStep (q : Query) {wb : WB} (h : Inv wb) : Inv (isQualifiedStep q wb) := by
  rcases h1 : q.params "is_qualified" with _ | v <;> simp only [isQualifiedStep, h1]
  · exact h
  · exact inv_pushOne h _ _ rfl

theorem inv_ownerInit (q : Query) : Inv (ownerInit q) := by
  constructor
  · simp [ownerInit, condPlaceholders, List.range'_one]
  · rfl

theorem inv_buildWhereClause (q : Query) : Inv (buildWhereClause q) := by
  rw [buildWhereClause_eq]
  exact inv_isQualifiedStep q (inv_createdBeforeStep q (inv_createdAfterStep q
    (inv_dateField q "last_activity_at" (inv_dateField q "created_at"
      (inv_valueMaxStep q (inv_valueMinStep q (inv_numberField q "lead_value"
        (inv_numberField q "score" (inv_enumField q "source" (inv_enumField q "status"
          (inv_stringField q "last_name" (inv_stringField q "first_name"
            (inv_stringField q "city" (inv_stringField q "company"
              (inv_stringField q "email" (inv_ownerInit q))))))))))))))))

theorem buildWhereClause_head_cond (q : Query) :
    (buildWhereClause q).conditions.head? = some (Cond.eq "user_id" 1) :=
  head_conditions_of_extends (buildWhereClause_extends q) rfl

theorem buildWhereClause_head_value (q : Query) :
    (buildWhereClause q).values.head? = some (JVal.num (JsNum.val (q.userId : ℚ))) :=
  head_values_of_extends (buildWhereClause_extends q) rfl

/-! ## Membership of coerced values in the built value list -/

theorem mem_pushOne_self (wb : WB) (mk : Nat → Cond) (v : JVal) :
    v ∈ (pushOne wb mk v).values := by
  simp [pushOne]

theorem mem_pushOne (wb : WB) (mk : Nat → Cond) (v : JVal) {w : JVal} (h : w ∈ wb.values) :
    w ∈ (pushOne wb mk v).values := by
  simp only [pushOne]
  exact List.mem_append_left _ h

theorem mem_pushTwo_fst (wb : WB) (mk : Nat → Nat → Cond) (v1 v2 : JVal) :
    v1 ∈ (pushTwo wb mk v1 v2).values := by
  simp [pushTwo]

theorem mem_pushTwo_snd (wb : WB) (mk : Nat → Nat → Cond) (v1 v2 : JVal) :
    v2 ∈ (pushTwo wb mk v1 v2).values := by
  simp [pushTwo]

theorem mem_pushTwo (wb : WB) (mk : Nat → Nat → Cond) (v1 v2 : JVal) {w : JVal}
    (h : w ∈ wb.values) : w ∈ (pushTwo wb mk v1 v2).values := by
  simp only [pushTwo]
  exact List.mem_append_left _ h

theorem mem_pushIn (wb : WB) (f : String) (items : List String) {w : JVal}
    (h : w ∈ wb.values) : w ∈ (pushIn wb f items).values := by
  simp only [pushIn]
  exact List.mem_append_left _ h

theorem numberField_mem_eq {q : Query} {f : String} {v : String} (wb : WB)
    (h : q.params f = some v) :
    JVal.num (jsNumber v) ∈ (numberField q f wb).values := by
  rcases h2 : q.params (f ++ "_gt") with _ | v2 <;>
    rcases h3 : q.params (f ++ "_lt") with _ | v3 <;>
    rcases h4 : q.params (f ++ "_between") with _ | v4 <;>
    simp only [numberField, h, h2, h3, h4] <;>
    repeat
      first
      | exact mem_pushOne_self _ _ _
      | split_ifs
      | apply mem_pushOne
      | apply mem_pushTwo

theorem numberField_mem_gt {q : Query} {f : String} {v : String} (wb : WB)
    (h : q.params (f ++ "_gt") = some v) :
    JVal.num (jsNumber v) ∈ (numberField q f wb).values := by
  rcases h1 : q.params f with _ | v1 <;>
    rcases h3 : q.params (f ++ "_lt") with _ | v3 <;>
    rcases h4 : q.params (f ++ "_between") with _ | v4 <;>
    simp only [numberField, h, h1, h3, h4] <;>
    repeat
      first
      | exact mem_pushOne_self _ _ _
      | split_ifs
      | apply mem_pushOne
      | apply mem_pushTwo

theorem numberField_mem_lt {q : Query} {f : String} {v : String} (wb : WB)
    (h : q.params (f ++ "_lt") = some v) :
    JVal.num (jsNumber v) ∈ (numberField q f wb).values := by
  rcases h1 : q.params f with _ | v1 <;>
    rcases h2 : q.params (f ++ "_gt") with _ | v2 <;>
    rcases h4 : q.params (f ++ "_between") with _ | v4 <;>
    simp only [numberField, h, h1, h2, h4] <;>
    repeat
      first
      | exact mem_pushOne_self _ _ _
      | split_ifs
      | apply mem_pushOne
      | apply mem_pushTwo

theorem numberField_mem_between {q : Query} {f : String} {v : String} (wb : WB)
    (h : q.params (f ++ "_between") = some v) (hv : v ≠ "")
    (hlen : ¬(jsSplit v ',').length < 2) :
    JVal.num (jsNumber ((jsSplit v ',').getD 0 "")) ∈ (numberField q f wb).values ∧
      JVal.num (jsNumber ((jsSplit v ',').getD 1 "")) ∈ (numberField q f wb).values := by
  rcases h1 : q.params f with _ | v1 <;>
    rcases h2 : q.params (f ++ "_gt") with _ | v2 <;>
    rcases h3 : q.params (f ++ "_lt") with _ | v3 <;>
    simp only [numberField, h, h1, h2, h3] <;>
    rw [if_neg hv, if_neg hlen] <;>
    exact ⟨mem_pushTwo_fst _ _ _ _, mem_pushTwo_snd _ _ _ _⟩

theorem valueMinStep_mem {q : Query} {v : String} (wb : WB)
    (h : q.params "value_min" = some v) :
    JVal.num (jsNumber v) ∈ (valueMinStep q wb).values := by
  simp only [valueMinStep, h]
  exact mem_pushOne_self _ _ _

theorem valueMaxStep_mem {q : Query} {v : String} (wb : WB)
    (h : q.params "value_max" = some v) :
    JVal.num (jsNumber v) ∈ (valueMaxStep q wb).values := by
  simp only [valueMaxStep, h]
  exact mem_pushOne_self _ _ _

theorem isQualifiedStep_mem {q : Query} {v : String} (wb : WB)
    (h : q.params "is_qualified" = some v) :
    JVal.bool (jsToLower v == "true") ∈ (isQualifiedStep q wb).values := by
  simp only [isQualifiedStep, h]
  exact mem_pushOne_self _ _ _

/-- Tail of the builder chain after the score step. -/
theorem tail_after_score_extends (q : Query) (wb : WB) :
    Extends wb (isQualifiedStep q (createdBeforeStep q (createdAfterStep q
      (dateField q "last_activity_at" (dateField q "created_at"
        (valueMaxStep q (valueMinStep q (numberField q "lead_value" wb)))))))) :=
  extends_trans (numberField_extends q "lead_value" wb)
    (extends_trans (valueMinStep_extends q _)
    (extends_trans (valueMaxStep_extends q _)
    (extends_trans (dateField_extends q "created_at" _)
    (extends_trans (dateField_extends q "last_activity_at" _)
    (extends_trans (createdAfterStep_extends q _)
    (extends_trans (createdBeforeStep_extends q _) (isQualifiedStep_extends q _)))))))

/-- Tail of the builder chain after the lead_value step. -/
theorem tail_after_leadValue_extends (q : Query) (wb : WB) :
    Extends wb (isQualifiedStep q (createdBeforeStep q (createdAfterStep q
      (dateField q "last_activity_at" (dateField q "created_at"
        (valueMaxStep q (valueMinStep q wb))))))) :=
  extends_trans (valueMinStep_extends q wb)
    (extends_trans (valueMaxStep_extends q _)
    (extends_trans (dateField_extends q "created_at" _)
    (extends_trans (dateField_extends q "last_activity_at" _)
    (extends_trans (createdAfterStep_extends q _)
    (extends_trans (createdBeforeStep_extends q _) (isQualifiedStep_extends q _))))))

/-- Tail of the builder chain after the value_min step. -/
theorem tail_after_valueMin_extends (q : Query) (wb : WB) :
    Extends wb (isQualifiedStep q (createdBeforeStep q (createdAfterStep q
      (dateField q "last_activity_at" (dateField q "created_at" (valueMaxStep q wb)))))) :=
  extends_trans (valueMaxStep_extends q wb)
    (extends_trans (dateField_extends q "created_at" _)
    (extends_trans (dateField_extends q "last_activity_at" _)
    (extends_trans (createdAfterStep_extends q _)
    (extends_trans (createdBeforeStep_extends q _) (isQualifiedStep_extends q _)))))

/-- Tail of the builder chain after the value_max step. -/
theorem tail_after_valueMax_extends (q : Query) (wb : WB) :
    Extends wb (isQualifiedStep q (createdBeforeStep q (createdAfterStep q
      (dateField q "last_activity_at" (dateField q "created_at" wb))))) :=
  extends_trans (dateField_extends q "created_at" wb)
    (extends_trans (dateField_extends q "last_activity_at" _)
    (extends_trans (createdAfterStep_extends q _)
    (extends_trans (createdBeforeStep_extends q _) (isQualifiedStep_extends q _))))

/-! ## Owner scoping through the evaluated WHERE clause -/

theorem evalConds_owner {conds : List Cond} {vals : List JVal} {uid : Nat} {l : Lead}
    (hc : conds.head? = some (Cond.eq "user_id" 1))
    (hv : vals.head? = some (JVal.num (JsNum.val (uid : ℚ))))
    (h : evalConds conds vals l = true) : l.user_id = uid := by
  cases conds with
  | nil => simp at hc
  | cons c cs =>
    simp only [List.head?_cons, Option.some.injEq] at hc
    subst hc
    simp only [evalConds, List.all_cons, Bool.and_eq_true] at h
    have h1 := h.1
    cases vals with
    | nil => simp at hv
    | cons v vs =>
      simp only [List.head?_cons, Option.some.injEq] at hv
      subst hv
      simp [evalCond, leadField, getVal, jvEq, jsNumEq] at h1
      exact_mod_cast h1

theorem mem_sortInsert {x a : Lead} : ∀ {l : List Lead}, a ∈ sortInsert x l → a = x ∨ a ∈ l := by
  intro l
  induction l with
  | nil => simp [sortInsert]
  | cons y ys ih =>
    simp only [sortInsert]
    split
    · intro h
      simpa using h
    · intro h
      rcases List.mem_cons.1 h with h1 | h1
      · right
        simp [h1]
      · rcases ih h1 with h2 | h2
        · exact Or.inl h2
        · exact Or.inr (List.mem_cons_of_mem y h2)

theorem mem_sortByCreatedAtDesc {a : Lead} :
    ∀ {db : List Lead}, a ∈ sortByCreatedAtDesc db → a ∈ db := by
  intro db
  induction db with
  | nil => simp [sortByCreatedAtDesc]
  | cons x xs ih =>
    intro h
    have h2 : a ∈ sortInsert x (sortByCreatedAtDesc xs) := h
    rcases mem_sortInsert h2 with h3 | h3
    · simp [h3]
    · exact List.mem_cons_of_mem x (ih h3)

theorem filter_owner_nil {db : List Lead} {id uid : Nat}
    (h : ∀ l ∈ db, ¬(l.id = id ∧ l.user_id = uid)) :
    db.filter (fun l => l.id == id && l.user_id == uid) = [] := by
  induction db with
  | nil => rfl
  | cons x xs ih =>
    have hx := h x (List.mem_cons_self x xs)
    have hfalse : (x.id == id && x.user_id == uid) = false := by
      by_cases h1 : x.id = id
      · by_cases h2 : x.user_id = uid
        · exact absurd ⟨h1, h2⟩ hx
        · simp [h1, h2]
      · simp [h1]
    rw [List.filter_cons, if_neg (by simp [hfalse])]
    exact ih (fun l hl => h l (List.mem_cons_of_mem x hl))

/-! ## Pagination clamp bounds -/

theorem parseLimit_bounds (o : Option String) : 1 ≤ parseLimit o ∧ parseLimit o ≤ 100 := by
  unfold parseLimit
  have h1 : (1 : Int) ≤ max (jsOrZeroDefault (o.bind jsParseInt) 20) 1 :=
    le_max_right _ 1
  have h2 : (1 : Int) ≤ min (max (jsOrZeroDefault (o.bind jsParseInt) 20) 1) 100 :=
    le_min h1 (by norm_num)
  have h3 : min (max (jsOrZeroDefault (o.bind jsParseInt) 20) 1) 100 ≤ 100 :=
    min_le_right _ _
  omega

theorem parsePage_bounds (o : Option String) : 1 ≤ parsePage o := by
  unfold parsePage
  have h1 : (1 : Int) ≤ max (jsOrZeroDefault (o.bind jsParseInt) 1) 1 :=
    le_max_right _ 1
  omega

/-! ## The claims -/

/-- C1: every database access is owner-scoped. buildWhereClause always
places the ownership predicate `user_id = $1` as its first condition,
with the caller id as the first bound value; the by-id handlers
constrain id AND user_id (their results satisfy both); hence every lead
returned by any handler has owner id equal to the requesting user id,
and DELETE removes only rows of the requesting user. -/
theorem claim_C1_owner_scoping (db : List Lead) (q : Query) (uid id freshId : Nat)
    (params : String → Option String) (now : String) (b : Body) (l : Lead) :
    (buildWhereClause q).conditions.head? = some (Cond.eq "user_id" 1) ∧
    render (Cond.eq "user_id" 1) = "user_id = $1" ∧
    (buildWhereClause q).values.head? = some (JVal.num (JsNum.val (q.userId : ℚ))) ∧
    (l ∈ dataOf (getLeads db uid params) → l.user_id = uid) ∧
    (respLead (getLeadById db uid id) = some l → l.user_id = uid ∧ l.id = id) ∧
    (respLead (createLead db uid freshId now b) = some l → l.user_id = uid) ∧
    (respLead (updateLead db uid id now b) = some l → l.user_id = uid ∧ l.id = id) ∧
    (∀ l2 ∈ db, l2 ∉ (deleteLead db uid id).db → l2.id = id ∧ l2.user_id = uid) := by
  refine ⟨buildWhereClause_head_cond q, rfl, buildWhereClause_head_value q, ?_, ?_, ?_, ?_, ?_⟩
  · intro h
    have h2 : l ∈ ((sortByCreatedAtDesc (db.filter
        (matchesWhere (buildWhereClause { userId := uid, params := params })))).drop
          ((parsePage (params "page") - 1) * parseLimit (params "limit"))).take
          (parseLimit (params "limit")) := h
    have h3 := List.mem_of_mem_take h2
    have h4 := List.mem_of_mem_drop h3
    have h5 := mem_sortByCreatedAtDesc h4
    have h6 := List.mem_filter.1 h5
    exact evalConds_owner (buildWhereClause_head_cond _) (buildWhereClause_head_value _) h6.2
  · intro h
    rcases hfil : db.filter (fun x => x.id == id && x.user_id == uid) with _ | ⟨y, ys⟩
    · simp [respLead, getLeadById, hfil] at h
    · simp only [respLead, getLeadById, hfil, Option.some.injEq] at h
      have hy : y ∈ db.filter (fun x => x.id == id && x.user_id == uid) := by
        rw [hfil]
        exact List.mem_cons_self y ys
      have hb := (List.mem_filter.1 hy).2
      simp only [Bool.and_eq_true, beq_iff_eq] at hb
      rw [← h]
      exact ⟨hb.2, hb.1⟩
  · intro h
    by_cases hreq : requiredMissing b = true
    · simp [respLead, createLead, hreq] at h
    · simp only [respLead, createLead, hreq, if_false, Bool.not_eq_true, if_neg,
        Option.some.injEq] at h
      rw [← h]
      rfl
  · intro h
    rcases hfil : db.filter (fun x => x.id == id && x.user_id == uid) with _ | ⟨y, ys⟩
    · simp [respLead, updateLead, hfil] at h
    · by_cases hreq : requiredMissing b = true
      · simp [respLead, updateLead, hfil, hreq] at h
      · simp only [respLead, updateLead, hfil, hreq, Bool.not_eq_true, if_neg,
          Option.some.injEq] at h
        have hy : y ∈ db.filter (fun x => x.id == id && x.user_id == uid) := by
          rw [hfil]
          exact List.mem_cons_self y ys
        have hb := (List.mem_filter.1 hy).2
        simp only [Bool.and_eq_true, beq_iff_eq] at hb
        rw [← h]
        exact ⟨hb.2, hb.1⟩
  · intro l2 hl2 hnot
    rcases hfil : db.filter (fun x => x.id == id && x.user_id == uid) with _ | ⟨y, ys⟩
    · exfalso
      apply hnot
      simp only [deleteLead, hfil]
      exact hl2
    · by_contra hcon
      apply hnot
      simp only [deleteLead, hfil]
      rw [List.mem_filter]
      refine ⟨hl2, ?_⟩
      rw [not_and_or] at hcon
      rcases hcon with hc | hc <;> simp [hc]

/-- C2: when no lead with the given id is owned by the requesting user,
GET by id, PUT and DELETE all respond 404 with body error "Lead not
found" and leave the table unchanged. -/
theorem claim_C2_cross_owner_404 (db : List Lead) (uid id : Nat) (now : String) (b : Body)
    (h : ∀ l ∈ db, ¬(l.id = id ∧ l.user_id = uid)) :
    ((getLeadById db uid id).status = 404 ∧
      (getLeadById db uid id).body = RespBody.error "Lead not found" ∧
      (getLeadById db uid id).db = db) ∧
    ((updateLead db uid id now b).status = 404 ∧
      (updateLead db uid id now b).body = RespBody.error "Lead not found" ∧
      (updateLead db uid id now b).db = db) ∧
    ((deleteLead db uid id).status = 404 ∧
      (deleteLead db uid id).body = RespBody.error "Lead not found" ∧
      (deleteLead db uid id).db = db) := by
  have hf := filter_owner_nil h
  refine ⟨⟨?_, ?_, ?_⟩, ⟨?_, ?_, ?_⟩, ⟨?_, ?_, ?_⟩⟩ <;>
    simp [getLeadById, updateLead, deleteLead, hf]

/-- C3: POST /leads responds 400 and inserts nothing whenever any of
first_name, last_name, email is missing or empty; PUT /leads/:id on an
existing owned lead responds 400 and leaves the table unchanged in the
same situations. -/
theorem claim_C3_required_fields (db : List Lead) (uid freshId id : Nat) (now : String)
    (b : Body) (l0 : Lead)
    (hm : missingOrEmpty b.first_name ∨ missingOrEmpty b.last_name ∨ missingOrEmpty b.email) :
    ((createLead db uid freshId now b).status = 400 ∧
      (createLead db uid freshId now b).body =
        RespBody.error "first_name, last_name, and email are required" ∧
      (createLead db uid freshId now b).db = db) ∧
    (l0 ∈ db → l0.id = id → l0.user_id = uid →
      (updateLead db uid id now b).status = 400 ∧
      (updateLead db uid id now b).body =
        RespBody.error "first_name, last_name, and email are required" ∧
      (updateLead db uid id now b).db = db) := by
  have hreq : requiredMissing b = true := by
    rcases hm with h | h | h <;> rcases h with h | h <;>
      simp [requiredMissing, truthyOpt, truthyJVal, h]
  constructor
  · refine ⟨?_, ?_, ?_⟩ <;> simp [createLead, hreq]
  · intro hl0 hid huid
    have hy : l0 ∈ db.filter (fun x => x.id == id && x.user_id == uid) :=
      List.mem_filter.2 ⟨hl0, by simp [hid, huid]⟩
    rcases hfil : db.filter (fun x => x.id == id && x.user_id == uid) with _ | ⟨y, ys⟩
    · rw [hfil] at hy
      simp at hy
    · refine ⟨?_, ?_, ?_⟩ <;> simp [updateLead, hfil, hreq]

/-- C4 (amended): all five routes authorize via the middleware first;
POST validates before executing any statement; GET /leads, GET by id
and DELETE have no field validation and after auth execute only
statements; PUT executes its ownership-existence SELECT before the
validation and the UPDATE only after the validation. -/
theorem claim_C4_step_order (db : List Lead) (user : Option Nat)
    (params : String → Option String) (id freshId : Nat) (now : String) (b : Body) :
    (getLeadsRoute db user params).trace.head? = some Ev.auth ∧
    (getLeadByIdRoute db user id).trace.head? = some Ev.auth ∧
    (createLeadRoute db user freshId now b).trace.head? = some Ev.auth ∧
    (updateLeadRoute db user id now b).trace.head? = some Ev.auth ∧
    (deleteLeadRoute db user id).trace.head? = some Ev.auth ∧
    queriesAfterValidate (createLeadRoute db user freshId now b).trace = true ∧
    ((getLeadsRoute db user params).trace.drop 1).all isQueryEv = true ∧
    ((getLeadByIdRoute db user id).trace.drop 1).all isQueryEv = true ∧
    ((deleteLeadRoute db user id).trace.drop 1).all isQueryEv = true ∧
    (∀ uid, user = some uid →
      (updateLeadRoute db user id now b).trace =
        [Ev.auth, Ev.dbQuery putExistsSql
          [JVal.num (JsNum.val (id : ℚ)), JVal.num (JsNum.val (uid : ℚ))]] ∨
      (updateLeadRoute db user id now b).trace =
        [Ev.auth, Ev.dbQuery putExistsSql
          [JVal.num (JsNum.val (id : ℚ)), JVal.num (JsNum.val (uid : ℚ))], Ev.validate] ∨
      (updateLeadRoute db user id now b).trace =
        [Ev.auth, Ev.dbQuery putExistsSql
          [JVal.num (JsNum.val (id : ℚ)), JVal.num (JsNum.val (uid : ℚ))], Ev.validate,
         Ev.dbQuery putUpdateSql (updateValues b id uid)]) := by
  rcases user with _ | uid
  · refine ⟨rfl, rfl, rfl, rfl, rfl, rfl, rfl, rfl, rfl, ?_⟩
    intro uid h
    simp at h
  · refine ⟨rfl, rfl, rfl, rfl, rfl, ?_, ?_, ?_, ?_, ?_⟩
    · by_cases hreq : requiredMissing b = true <;>
        simp [createLeadRoute, withAuth, createLead, hreq, queriesAfterValidate,
          isValidateEv, isQueryEv]
    · simp [getLeadsRoute, withAuth, getLeads, isQueryEv]
    · rcases hfil : db.filter (fun x => x.id == id && x.user_id == uid) with _ | ⟨y, ys⟩ <;>
        simp [getLeadByIdRoute, withAuth, getLeadById, hfil, isQueryEv]
    · rcases hfil : db.filter (fun x => x.id == id && x.user_id == uid) with _ | ⟨y, ys⟩ <;>
        simp [deleteLeadRoute, withAuth, deleteLead, hfil, isQueryEv]
    · intro uid2 h
      have huid : uid = uid2 := by
        simpa using h
      subst huid
      rcases hfil : db.filter (fun x => x.id == id && x.user_id == uid) with _ | ⟨y, ys⟩
      · left
        simp [updateLeadRoute, withAuth, updateLead, hfil]
      · by_cases hreq : requiredMissing b = true
        · right
          left
          simp [updateLeadRoute, withAuth, updateLead, hfil, hreq]
        · right
          right
          simp [updateLeadRoute, withAuth, updateLead, hfil, hreq]

/-- C4 counterexample: the claim states the handlers validate before
executing any database statement, but with one existing owned lead and
a body missing first_name, PUT /leads/:id emits its ownership-existence
SELECT before the validation event. -/
theorem claim_C4_counterexample :
    queriesAfterValidate
      ((updateLeadRoute [sampleLead] (some 5) 1 "2024-01-02T00:00:00Z"
        { last_name := some (JVal.str "x"), email := some (JVal.str "y") }).trace) = false := by
  decide

/-- C5: the COUNT and list statements of GET /leads are built from the
identical WHERE fragment and bind the identical filter values, the list
statement adding only ORDER BY, LIMIT and OFFSET; the reported total is
the count of rows matching exactly the filters of the returned page. -/
theorem claim_C5_count_list_agree (db : List Lead) (uid : Nat)
    (params : String → Option String) :
    (getLeads db uid params).trace =
      [ Ev.dbQuery (countSqlOf (whereString (buildWhereClause { userId := uid, params := params })))
          (buildWhereClause { userId := uid, params := params }).values,
        Ev.dbQuery
          (listSqlOf (whereString (buildWhereClause { userId := uid, params := params }))
            (buildWhereClause { userId := uid, params := params }).values.length)
          ((buildWhereClause { userId := uid, params := params }).values ++
            [JVal.num (JsNum.val (parseLimit (params "limit") : ℚ)),
             JVal.num (JsNum.val
               (((parsePage (params "page") - 1) * parseLimit (params "limit") : Nat) : ℚ))]) ] ∧
    (getLeadsPayload db uid params).total =
      (db.filter (matchesWhere (buildWhereClause { userId := uid, params := params }))).length ∧
    (getLeadsPayload db uid params).data =
      ((sortByCreatedAtDesc (db.filter
        (matchesWhere (buildWhereClause { userId := uid, params := params })))).drop
          ((parsePage (params "page") - 1) * parseLimit (params "limit"))).take
          (parseLimit (params "limit")) :=
  ⟨rfl, rfl, rfl⟩

/-- C6: buildWhereClause is total over arbitrary string-valued query
mappings (it always yields a nonempty condition and value list, never an
error); numeric operator inputs are coerced through the Number
conversion, possibly to NaN, and any is_qualified value other than
case-insensitive "true" is coerced to the boolean false. -/
theorem claim_C6_total_coercion (q : Query) :
    (buildWhereClause q).conditions ≠ [] ∧
    (buildWhereClause q).values ≠ [] ∧
    (∀ f, f = "score" ∨ f = "lead_value" →
      (∀ v, q.params f = some v →
        JVal.num (jsNumber v) ∈ (buildWhereClause q).values) ∧
      (∀ v, q.params (f ++ "_gt") = some v →
        JVal.num (jsNumber v) ∈ (buildWhereClause q).values) ∧
      (∀ v, q.params (f ++ "_lt") = some v →
        JVal.num (jsNumber v) ∈ (buildWhereClause q).values) ∧
      (∀ v, q.params (f ++ "_between") = some v → v ≠ "" → ¬(jsSplit v ',').length < 2 →
        JVal.num (jsNumber ((jsSplit v ',').getD 0 "")) ∈ (buildWhereClause q).values ∧
        JVal.num (jsNumber ((jsSplit v ',').getD 1 "")) ∈ (buildWhereClause q).values)) ∧
    (∀ v, q.params "value_min" = some v →
      JVal.num (jsNumber v) ∈ (buildWhereClause q).values) ∧
    (∀ v, q.params "value_max" = some v →
      JVal.num (jsNumber v) ∈ (buildWhereClause q).values) ∧
    (∀ v, q.params "is_qualified" = some v →
      JVal.bool (jsToLower v == "true") ∈ (buildWhereClause q).values ∧
      (jsToLower v ≠ "true" → JVal.bool false ∈ (buildWhereClause q).values)) := by
  refine ⟨?_, ?_, ?_, ?_, ?_, ?_⟩
  · intro hnil
    have hh := buildWhereClause_head_cond q
    rw [hnil] at hh
    simp at hh
  · intro hnil
    have hh := buildWhereClause_head_value q
    rw [hnil] at hh
    simp at hh
  · intro f hf
    rcases hf with hf | hf <;> subst hf <;>
      refine ⟨?_, ?_, ?_, ?_⟩ <;> intro v hv
    · rw [buildWhereClause_eq q]
      exact mem_values_of_extends (tail_after_score_extends q _) (numberField_mem_eq _ hv)
    · rw [buildWhereClause_eq q]
      exact mem_values_of_extends (tail_after_score_extends q _) (numberField_mem_gt _ hv)
    · rw [buildWhereClause_eq q]
      exact mem_values_of_extends (tail_after_score_extends q _) (numberField_mem_lt _ hv)
    · intro hne hlen
      rw [buildWhereClause_eq q]
      have hmem := numberField_mem_between (q := q) (f := "score")
        (enumField q "source" (enumField q "status" (stringField q "last_name"
          (stringField q "first_name" (stringField q "city" (stringField q "company"
            (stringField q "email" (ownerInit q)))))))) hv hne hlen
      exact ⟨mem_values_of_extends (tail_after_score_extends q _) hmem.1,
        mem_values_of_extends (tail_after_score_extends q _) hmem.2⟩
    · rw [buildWhereClause_eq q]
      exact mem_values_of_extends (tail_after_leadValue_extends q _) (numberField_mem_eq _ hv)
    · rw [buildWhereClause_eq q]
      exact mem_values_of_extends (tail_after_leadValue_extends q _) (numberField_mem_gt _ hv)
    · rw [buildWhereClause_eq q]
      exact mem_values_of_extends (tail_after_leadValue_extends q _) (numberField_mem_lt _ hv)
    · intro hne hlen
      rw [buildWhereClause_eq q]
      have hmem := numberField_mem_between (q := q) (f := "lead_value")
        (numberField q "score" (enumField q "source" (enumField q "status"
          (stringField q "last_name" (stringField q "first_name" (stringField q "city"
            (stringField q "company" (stringField q "email" (ownerInit q))))))))) hv hne hlen
      exact ⟨mem_values_of_extends (tail_after_leadValue_extends q _) hmem.1,
        mem_values_of_extends (tail_after_leadValue_extends q _) hmem.2⟩
  · intro v hv
    rw [buildWhereClause_eq q]
    exact mem_values_of_extends (tail_after_valueMin_extends q _) (valueMinStep_mem _ hv)
  · intro v hv
    rw [buildWhereClause_eq q]
    exact mem_values_of_extends (tail_after_valueMax_extends q _) (valueMaxStep_mem _ hv)
  · intro v hv
    constructor
    · rw [buildWhereClause_eq q]
      exact isQualifiedStep_mem _ hv
    · intro hne
      have hfalse : (jsToLower v == "true") = false := by
        simpa using hne
      rw [buildWhereClause_eq q]
      have := isQualifiedStep_mem
        (createdBeforeStep q (createdAfterStep q (dateField q "last_activity_at"
          (dateField q "created_at" (valueMaxStep q (valueMinStep q
            (numberField q "lead_value" (numberField q "score" (enumField q "source"
              (enumField q "status" (stringField q "last_name" (stringField q "first_name"
                (stringField q "city" (stringField q "company"
                  (stringField q "email" (ownerInit q)))))))))))))))) hv
      rw [hfalse] at this
      exact this

/-- C7: every successful GET /leads response carries both envelope
shapes and they agree: the legacy leads field is the same array as the
modern data field, pagination repeats page, limit and total with pages
equal to totalPages, and totalPages is the ceiling of total over limit. -/
theorem claim_C7_envelopes (db : List Lead) (uid : Nat) (params : String → Option String) :
    (getLeads db uid params).body = RespBody.listBody (getLeadsPayload db uid params) ∧
    (getLeadsPayload db uid params).leads = (getLeadsPayload db uid params).data ∧
    (getLeadsPayload db uid params).pagination =
      { page := (getLeadsPayload db uid params).page,
        limit := (getLeadsPayload db uid params).limit,
        total := (getLeadsPayload db uid params).total,
        pages := (getLeadsPayload db uid params).totalPages } ∧
    (getLeadsPayload db uid params).totalPages =
      ⌈((getLeadsPayload db uid params).total : ℚ) /
        ((getLeadsPayload db uid params).limit : ℚ)⌉ :=
  ⟨rfl, rfl, rfl, rfl⟩

/-- C8: when the status body field is absent or otherwise falsy, both
the INSERT and the UPDATE bind the value "new" for status (positions 10
and 9 of their parameter lists), and because the update is a full-field
replacement, a successful update that omits status resets the stored
status to "new". -/
theorem claim_C8_status_default (db : List Lead) (uid freshId id : Nat) (now : String)
    (b : Body) (hs : truthyOpt b.status = false) :
    (insertValues uid b)[9]? = some (JVal.str "new") ∧
    (updateValues b id uid)[8]? = some (JVal.str "new") ∧
    (∀ l, respLead (createLead db uid freshId now b) = some l → l.status = JVal.str "new") ∧
    (∀ l, respLead (updateLead db uid id now b) = some l → l.status = JVal.str "new") ∧
    (∀ l ∈ (updateLead db uid id now b).db, l.id = id → l.user_id = uid →
      (updateLead db uid id now b).status = 200 → l.status = JVal.str "new") := by
  have hnew : jsOr b.status (JVal.str "new") = JVal.str "new" := by
    rcases hb : b.status with _ | v
    · rfl
    · rw [hb] at hs
      simp only [truthyOpt] at hs
      simp [jsOr, hs]
  refine ⟨?_, ?_, ?_, ?_, ?_⟩
  · have h9 : (insertValues uid b)[9]? = some (jsOr b.status (JVal.str "new")) := rfl
    rw [h9, hnew]
  · have h8 : (updateValues b id uid)[8]? = some (jsOr b.status (JVal.str "new")) := rfl
    rw [h8, hnew]
  · intro l h
    by_cases hreq : requiredMissing b = true
    · simp [respLead, createLead, hreq] at h
    · simp only [respLead, createLead, hreq, Bool.not_eq_true, if_neg,
        Option.some.injEq] at h
      rw [← h]
      show jsOr b.status (JVal.str "new") = JVal.str "new"
      exact hnew
  · intro l h
    rcases hfil : db.filter (fun x => x.id == id && x.user_id == uid) with _ | ⟨y, ys⟩
    · simp [respLead, updateLead, hfil] at h
    · by_cases hreq : requiredMissing b = true
      · simp [respLead, updateLead, hfil, hreq] at h
      · simp only [respLead, updateLead, hfil, hreq, Bool.not_eq_true, if_neg,
          Option.some.injEq] at h
        rw [← h]
        show jsOr b.status (JVal.str "new") = JVal.str "new"
        exact hnew
  · intro l hl hid huid h200
    rcases hfil : db.filter (fun x => x.id == id && x.user_id == uid) with _ | ⟨y, ys⟩
    · simp [updateLead, hfil] at h200
    · by_cases hreq : requiredMissing b = true
      · simp [updateLead, hfil, hreq] at h200
      · simp only [updateLead, hfil, hreq, Bool.not_eq_true, if_neg] at hl
        rcases List.mem_map.1 hl with ⟨l0, hl0, heq⟩
        by_cases hp : (l0.id == id && l0.user_id == uid) = true
        · rw [if_pos hp] at heq
          rw [← heq]
          show jsOr b.status (JVal.str "new") = JVal.str "new"
          exact hnew
        · rw [if_neg hp] at heq
          exfalso
          apply hp
          rw [heq]
          simp [hid, huid]

/-- C9: the effective limit of GET /leads is an integer clamped to
1..100 defaulting to 20 when the parameter is absent or unparsable, the
effective page is at least 1 defaulting to 1, the list offset is
(page - 1) * limit, and the response echoes the clamped values. -/
theorem claim_C9_pagination_clamp (db : List Lead) (uid : Nat)
    (params : String → Option String) :
    1 ≤ (getLeadsPayload db uid params).limit ∧
    (getLeadsPayload db uid params).limit ≤ 100 ∧
    (params "limit" = none → (getLeadsPayload db uid params).limit = 20) ∧
    (∀ s, params "limit" = some s → jsParseInt s = none →
      (getLeadsPayload db uid params).limit = 20) ∧
    1 ≤ (getLeadsPayload db uid params).page ∧
    (params "page" = none → (getLeadsPayload db uid params).page = 1) ∧
    (∀ s, params "page" = some s → jsParseInt s = none →
      (getLeadsPayload db uid params).page = 1) ∧
    (getLeadsPayload db uid params).page = parsePage (params "page") ∧
    (getLeadsPayload db uid params).limit = parseLimit (params "limit") ∧
    (getLeadsPayload db uid params).data =
      ((sortByCreatedAtDesc (db.filter
        (matchesWhere (buildWhereClause { userId := uid, params := params })))).drop
          (((getLeadsPayload db uid params).page - 1) *
            (getLeadsPayload db uid params).limit)).take
          ((getLeadsPayload db uid params).limit) := by
  refine ⟨(parseLimit_bounds (params "limit")).1, (parseLimit_bounds (params "limit")).2,
    ?_, ?_, parsePage_bounds (params "page"), ?_, ?_, rfl, rfl, rfl⟩
  · intro h
    show parseLimit (params "limit") = 20
    rw [h]
    decide
  · intro s h hp
    show parseLimit (params "limit") = 20
    rw [h]
    show (min (max (jsOrZeroDefault (jsParseInt s) 20) 1) 100).toNat = 20
    rw [hp]
    decide
  · intro h
    show parsePage (params "page") = 1
    rw [h]
    decide
  · intro s h hp
    show parsePage (params "page") = 1
    rw [h]
    show (max (jsOrZeroDefault (jsParseInt s) 1) 1).toNat = 1
    rw [hp]
    decide

/-- C10: for every input, the returned WHERE fragment is well formed
with respect to its value list: the placeholder indices referenced by
its conditions, in order, are exactly 1..n with no gaps or repeats,
where n is the length of the returned values, and the ownership
condition and value occupy position 1. -/
theorem claim_C10_placeholders (q : Query) :
    ((buildWhereClause q).conditions.map condPlaceholders).flatten =
      List.range' 1 (buildWhereClause q).values.length ∧
    (buildWhereClause q).conditions.head? = some (Cond.eq "user_id" 1) ∧
    (buildWhereClause q).values.head? = some (JVal.num (JsNum.val (q.userId : ℚ))) :=
  ⟨(inv_buildWhereClause q).1, buildWhereClause_head_cond q, buildWhereClause_head_value q⟩

/-! ## Concrete witnesses -/

/-- Witness for C1: the sample lead listed and fetched by its owner
(user 5) indeed has owner id 5 and the requested id. -/
theorem claim_C1_owner_scoping_witness :
    sampleLead.user_id = 5 ∧ (sampleLead.user_id = 5 ∧ sampleLead.id = 1) :=
  ⟨(claim_C1_owner_scoping [sampleLead] { userId := 5, params := fun _ => none } 5 1 2
      (fun _ => none) "2024-01-02T00:00:00Z" sampleBody sampleLead).2.2.2.1 (by decide),
   (claim_C1_owner_scoping [sampleLead] { userId := 5, params := fun _ => none } 5 1 2
      (fun _ => none) "2024-01-02T00:00:00Z" sampleBody sampleLead).2.2.2.2.1 (by decide)⟩

/-- Witness for C2: user 7 requesting the lead owned by user 5 gets 404
from GET by id and DELETE, and the update leaves the table unchanged. -/
theorem claim_C2_cross_owner_404_witness :
    (getLeadById [sampleLead] 7 1).status = 404 ∧
    (updateLead [sampleLead] 7 1 "2024-01-02T00:00:00Z" sampleBody).db = [sampleLead] ∧
    (deleteLead [sampleLead] 7 1).status = 404 :=
  ⟨(claim_C2_cross_owner_404 [sampleLead] 7 1 "2024-01-02T00:00:00Z" sampleBody
      (by decide)).1.1,
   (claim_C2_cross_owner_404 [sampleLead] 7 1 "2024-01-02T00:00:00Z" sampleBody
      (by decide)).2.1.2.2,
   (claim_C2_cross_owner_404 [sampleLead] 7 1 "2024-01-02T00:00:00Z" sampleBody
      (by decide)).2.2.1⟩

/-- Witness for C3: a body missing first_name makes POST return 400 and
makes PUT on the existing owned lead leave the table unchanged. -/
theorem claim_C3_required_fields_witness :
    (createLead [] 5 2 "2024-01-02T00:00:00Z"
      { last_name := some (JVal.str "L"), email := some (JVal.str "e") }).status = 400 ∧
    (updateLead [sampleLead] 5 1 "2024-01-02T00:00:00Z"
      { last_name := some (JVal.str "L"), email := some (JVal.str "e") }).db = [sampleLead] :=
  ⟨(claim_C3_required_fields [] 5 2 1 "2024-01-02T00:00:00Z"
      { last_name := some (JVal.str "L"), email := some (JVal.str "e") } sampleLead
      (Or.inl (Or.inl rfl))).1.1,
   ((claim_C3_required_fields [sampleLead] 5 2 1 "2024-01-02T00:00:00Z"
      { last_name := some (JVal.str "L"), email := some (JVal.str "e") } sampleLead
      (Or.inl (Or.inl rfl))).2 (by decide) rfl rfl).2.2⟩

/-- Witness for C4 (amended): at user 5 the POST trace validates before
any statement, and the PUT trace on the sample table takes one of the
three stated shapes. -/
theorem claim_C4_step_order_witness :
    queriesAfterValidate (createLeadRoute [] (some 5) 2 "2024-01-02T00:00:00Z"
      sampleBody).trace = true ∧
    ((updateLeadRoute [sampleLead] (some 5) 1 "2024-01-02T00:00:00Z" sampleBody).trace =
        [Ev.auth, Ev.dbQuery putExistsSql
          [JVal.num (JsNum.val ((1 : Nat) : ℚ)), JVal.num (JsNum.val ((5 : Nat) : ℚ))]] ∨
      (updateLeadRoute [sampleLead] (some 5) 1 "2024-01-02T00:00:00Z" sampleBody).trace =
        [Ev.auth, Ev.dbQuery putExistsSql
          [JVal.num (JsNum.val ((1 : Nat) : ℚ)), JVal.num (JsNum.val ((5 : Nat) : ℚ))],
         Ev.validate] ∨
      (updateLeadRoute [sampleLead] (some 5) 1 "2024-01-02T00:00:00Z" sampleBody).trace =
        [Ev.auth, Ev.dbQuery putExistsSql
          [JVal.num (JsNum.val ((1 : Nat) : ℚ)), JVal.num (JsNum.val ((5 : Nat) : ℚ))],
         Ev.validate, Ev.dbQuery putUpdateSql (updateValues sampleBody 1 5)]) :=
  ⟨(claim_C4_step_order [] (some 5) (fun _ => none) 1 2 "2024-01-02T00:00:00Z"
      sampleBody).2.2.2.2.2.1,
   (claim_C4_step_order [sampleLead] (some 5) (fun _ => none) 1 2 "2024-01-02T00:00:00Z"
      sampleBody).2.2.2.2.2.2.2.2.2 5 rfl⟩

/-- Witness for C6: a non-numeric score is coerced through the Number
conversion and bound, and an is_qualified value other than "true" is
bound as the boolean false. -/
theorem claim_C6_total_coercion_witness :
    JVal.num (jsNumber "abc") ∈ (buildWhereClause
      { userId := 3,
        params := fun k =>
          if k = "score" then some "abc"
          else if k = "is_qualified" then some "yes" else none }).values ∧
    JVal.bool false ∈ (buildWhereClause
      { userId := 3,
        params := fun k =>
          if k = "score" then some "abc"
          else if k = "is_qualified" then some "yes" else none }).values :=
  ⟨((claim_C6_total_coercion
      { userId := 3,
        params := fun k =>
          if k = "score" then some "abc"
          else if k = "is_qualified" then some "yes" else none }).2.2.1 "score"
      (Or.inl rfl)).1 "abc" rfl,
   ((claim_C6_total_coercion
      { userId := 3,
        params := fun k =>
          if k = "score" then some "abc"
          else if k = "is_qualified" then some "yes" else none }).2.2.2.2.2 "yes" rfl).2
      (by decide)⟩

/-- Witness for C8: with a body whose status is absent, the INSERT and
UPDATE statements bind "new" for status. -/
theorem claim_C8_status_default_witness :
    (insertValues 5 sampleBody)[9]? = some (JVal.str "new") ∧
    (updateValues sampleBody 1 5)[8]? = some (JVal.str "new") :=
  ⟨(claim_C8_status_default [] 5 2 1 "2024-01-02T00:00:00Z" sampleBody rfl).1,
   (claim_C8_status_default [] 5 2 1 "2024-01-02T00:00:00Z" sampleBody rfl).2.1⟩

/-- Witness for C9: with no query parameters the effective limit is 20
and the effective page is 1. -/
theorem claim_C9_pagination_clamp_witness :
    (getLeadsPayload [] 1 (fun _ => none)).limit = 20 ∧
    (getLeadsPayload [] 1 (fun _ => none)).page = 1 :=
  ⟨(claim_C9_pagination_clamp [] 1 (fun _ => none)).2.2.1 rfl,
   (claim_C9_pagination_clamp [] 1 (fun _ => none)).2.2.2.2.2.1 rfl⟩

end Leads
